import Mathlib

/-!
Shallow embedding of the expense-tracking core of the repository
(`src/expenses/credit_card_expenses.py` and `src/expenses/app.py`):
CSV row parsing, keyword categorization, monthly aggregation and the
derived analytics (averages, trailing averages, trends).

Conventions of the embedding:
* Python `float` amounts are modelled by `ℚ` (the data and claims only
  involve exact decimal arithmetic).
* A CSV file is a `List (List String)` of already-split rows (the `csv`
  module's quoting layer is abstracted away).
* Python's `float(s)` is modelled on plain signed decimal notation
  (optional sign, digits, optional fractional part) — the forms that
  occur in the data; exponents, `inf`/`nan` and underscores are outside
  the modelled fragment.
* `strftime("%Y-%m")` month-key strings are modelled by the number
  `year * 100 + month`, which is equality- and order-isomorphic to the
  zero-padded `YYYY-MM` string for the 4-digit years of the data.
* A Python expression that raises (`ZeroDivisionError`) is modelled by
  `Option`, `none` standing for the raised exception.
-/

namespace Expenses

/-- Python `str.strip` whitespace test restricted to the ASCII whitespace
characters Python strips. -/
def isPySpace (c : Char) : Bool :=
  c = ' ' || c = '\t' || c = '\n' || c = '\r' || c = '\x0b' || c = '\x0c'

/-- Python `str.strip()`: drop leading and trailing whitespace. -/
def pyStrip (s : String) : String :=
  String.mk (((s.data.dropWhile isPySpace).reverse.dropWhile isPySpace).reverse)

/-- Python `str.lower()` on the ASCII fragment occurring in the data. -/
def pyLower (s : String) : String :=
  String.mk (s.data.map Char.toLower)

/-- Does `hay` start with `needle` (on character lists)? -/
def startsWithChars : List Char → List Char → Bool
  | [], _ => true
  | _ :: _, [] => false
  | a :: as, b :: bs => a = b && startsWithChars as bs

/-- Substring search on character lists. -/
def hasSubstring (needle : List Char) : List Char → Bool
  | [] => needle.isEmpty
  | c :: rest => startsWithChars needle (c :: rest) || hasSubstring needle rest

/-- Python's `needle in hay` substring test for strings. -/
def pyContains (hay needle : String) : Bool :=
  hasSubstring needle.data hay.data

/-- Numeric value of a list of decimal digit characters. -/
def digitsToNat (cs : List Char) : Nat :=
  cs.foldl (fun acc c => acc * 10 + (c.toNat - 48)) 0

/-- Sign factor of a decimal literal: `-1` exactly when it starts with
`-`, else `1`. -/
def decSign (s : String) : ℚ :=
  if s.data.head? = some '-' then -1 else 1

/-- The characters of a decimal literal after the optional leading sign. -/
def decBody (s : String) : List Char :=
  if s.data.head? = some '-' || s.data.head? = some '+' then s.data.tail else s.data

/-- Python `float(s)` on plain signed decimal notation: optional sign,
then digits with an optional `.` and fractional digits (at least one
digit overall). `none` models the `ValueError` raised on anything else. -/
def parseDec (s : String) : Option ℚ :=
  match (decBody s).dropWhile Char.isDigit with
  | [] =>
      if ((decBody s).takeWhile Char.isDigit).isEmpty then none
      else some (decSign s * (digitsToNat ((decBody s).takeWhile Char.isDigit) : ℚ))
  | '.' :: fp =>
      if fp.all Char.isDigit && !(((decBody s).takeWhile Char.isDigit).isEmpty && fp.isEmpty) then
        some (decSign s *
          ((digitsToNat ((decBody s).takeWhile Char.isDigit) : ℚ)
            + (digitsToNat fp : ℚ) / (10 : ℚ) ^ fp.length))
      else none
  | _ => none

/-- Split a character list on a separator character (the `str.split(".")`
step underlying `strptime`'s literal-dot matching); always nonempty. -/
def splitOnChar (sep : Char) : List Char → List (List Char)
  | [] => [[]]
  | c :: rest =>
      match splitOnChar sep rest with
      | [] => [[c]]
      | g :: gs => if c = sep then [] :: g :: gs else (c :: g) :: gs

/-- A calendar date as parsed from the `DD.MM.YYYY` field. -/
structure Date where
  year : Nat
  month : Nat
  day : Nat
deriving DecidableEq, Repr

/-- Leap-year rule used by `datetime` to validate the day of month. -/
def isLeap (y : Nat) : Bool :=
  y % 4 = 0 && (y % 100 != 0 || y % 400 = 0)

/-- Number of days of month `m` in year `y` (as validated by `datetime`). -/
def daysInMonth (y m : Nat) : Nat :=
  if m = 2 then (if isLeap y then 29 else 28)
  else if m = 4 || m = 6 || m = 9 || m = 11 then 30
  else 31

/-- Python `datetime.strptime(s, "%d.%m.%Y")`: day of 1–2 digits valued
1–31, month of 1–2 digits valued 1–12, a 4-digit year (`datetime` requires
year ≥ 1), separated by literal dots with nothing left over, and the day
validated against the calendar length of the month. `none` models the
raised `ValueError`. -/
def parseDate (s : String) : Option Date :=
  match splitOnChar '.' s.data with
  | [dcs, mcs, ycs] =>
      if dcs.all Char.isDigit && mcs.all Char.isDigit && ycs.all Char.isDigit
          && (dcs.length = 1 || dcs.length = 2)
          && (mcs.length = 1 || mcs.length = 2)
          && ycs.length = 4 then
        let d := digitsToNat dcs
        let m := digitsToNat mcs
        let y := digitsToNat ycs
        if 1 ≤ d && d ≤ 31 && 1 ≤ m && m ≤ 12 && 1 ≤ y && d ≤ daysInMonth y m then
          some ⟨y, m, d⟩
        else none
      else none
  | _ => none

/-- The `CATEGORIES` keyword table of `credit_card_expenses.py`, as an
ordered list of (category, keywords) pairs (Python dicts preserve
insertion order, and `categorize_merchant` iterates in that order). -/
def CATEGORIES : List (String × List String) :=
  [ ("groceries",
      ["yeme", "coop", "lidl", "billa", "malina", "kraj", "terno",
       "stary otec", "ah", "albert hein", "jumbo", "spar", "tesco",
       "pekaren", "albert heijn"]),
    ("eating out",
      ["bowls", "gelato", "pollito", "kebab", "roxor", "dunkin donuts",
       "chokiki", "poseidon", "mcdonald", "kfc", "restauracia", "kaviaren",
       "ramen", "bowlicheck", "soho", "starbucks", "subway", "koliba",
       "pho", "dominos", "kavoaren", "kantina", "bbq", "burger", "cafe",
       "wolt", "noodle", "fresh market", "noodle", "costa", "fruitisimo",
       "restaurant", "donuteria"]),
    ("bolt", ["bolt", "taxi"]),
    ("car wash", ["mobydick", "pasadur"]),
    ("gas stations", ["orlen", "slovnaft", "omv", "shell", "cerp. stanica"]),
    ("nabytok", ["ikea", "hornbach", "jysk", "mobelix", "bauhaus"]),
    ("travel", ["flixbus", "ryanair", "airbnb", "booking", "hotels.com"]),
    ("parking", ["parkscheinautomat", "parkovis", "parkovanie", "parking", "easypark"]),
    ("oil partner", ["oil"]) ]

/-- The fixed display order `CATEGORY_ORDER` of `credit_card_expenses.py`. -/
def CATEGORY_ORDER : List String :=
  ["groceries", "eating out", "bolt", "car wash", "gas stations",
   "parking", "nabytok", "oil partner", "other"]

/-- First category of the table whose keyword list has a match in the
lowercased merchant text (the nested loops of `categorize_merchant`). -/
def firstMatch (ml : String) : List (String × List String) → Option String
  | [] => none
  | (c, kws) :: rest =>
      if kws.any (fun k => pyContains ml k) then some c else firstMatch ml rest

/-- `categorize_merchant`: lowercase the merchant, scan `CATEGORIES` in
order, return the first category with a matching keyword, else `other`. -/
def categorize_merchant (merchant : String) : String :=
  (firstMatch (pyLower merchant) CATEGORIES).getD "other"

/-- A parsed transaction (the dict appended by `parse_expenses_from_csv`). -/
structure Transaction where
  date : Date
  merchant : String
  amount : ℚ
  category : String
deriving DecidableEq, Repr

/-- Positional field access `row[i]` on a CSV row (total, defaulting to
the empty string; `parseRow` only reads fields below the length bound it
checks first). -/
def field (row : List String) (i : Nat) : String :=
  row.getD i ""

/-- The per-row body of `parse_expenses_from_csv`: reject on fewer than 11
fields, then on a `Kredit` direction field, then on a date that fails
`DD.MM.YYYY`, then on an amount that fails decimal parsing; otherwise
build the transaction from fields 0/2/6/10. -/
def parseRow (row : List String) : Option Transaction :=
  if row.length < 11 then none
  else if pyLower (pyStrip (field row 0)) = "kredit" then none
  else
    match parseDate (pyStrip (field row 6)) with
    | none => none
    | some txDate =>
        match parseDec (pyStrip (field row 2)) with
        | none => none
        | some txAmount =>
            some ⟨txDate, pyStrip (field row 10), txAmount,
                  categorize_merchant (pyStrip (field row 10))⟩

/-- `parse_expenses_from_csv` on the rows of one file: skip the header
row (`next(reader, None)`), then parse row by row, dropping rejects. -/
def parse_expenses_from_csv (rows : List (List String)) : List Transaction :=
  match rows with
  | [] => []
  | _ :: dataRows => dataRows.filterMap parseRow

/-- `get_expenses_data` of `app.py`: parse every file and concatenate the
results in file order. -/
def get_expenses_data (files : List (List (List String))) : List Transaction :=
  files.flatMap parse_expenses_from_csv

/-- The month key `tx["date"].strftime("%Y-%m")`, encoded as
`year * 100 + month` (equality- and order-isomorphic to the zero-padded
`YYYY-MM` string for the 4-digit years of the data). -/
def monthKey (d : Date) : Nat :=
  d.year * 100 + d.month

/-- One `monthly_sums[month][category] += amount` step of the defaultdict
fold, on a total map defaulting to 0. -/
def bump (f : Nat → String → ℚ) (m : Nat) (c : String) (a : ℚ) : Nat → String → ℚ :=
  fun m' c' => if m' = m ∧ c' = c then f m' c' + a else f m' c'

/-- The `monthly_sums` defaultdict fold of `get_monthly_data` / `main`,
started from an explicit initial state (the code always starts from the
empty, all-zero state, fresh on every call). -/
def aggFrom (f : Nat → String → ℚ) : List Transaction → (Nat → String → ℚ)
  | [] => f
  | t :: ts => aggFrom (bump f (monthKey t.date) t.category t.amount) ts

/-- The all-zero initial aggregation state (a fresh defaultdict). -/
def zeroAgg : Nat → String → ℚ := fun _ _ => 0

/-- `monthly_sums[m].get(c, 0.0)` after folding all transactions. -/
def monthlySum (txs : List Transaction) (m : Nat) (c : String) : ℚ :=
  aggFrom zeroAgg txs m c

/-- The keys of the `monthly_sums` dict: month keys of the transactions,
first occurrence order (Python dicts keep insertion order). -/
def monthKeys (txs : List Transaction) : List Nat :=
  (txs.map (fun t => monthKey t.date)).dedup

/-- `sorted(...)` on a list of (numeric) month keys, ascending. -/
def sortNat (l : List Nat) : List Nat :=
  l.mergeSort (· ≤ ·)

/-- `sorted(monthly_sums.keys())` for the transaction-level pipeline. -/
def sortedMonths (txs : List Transaction) : List Nat :=
  sortNat (monthKeys txs)

/-- The per-category `values` list of the `/api/trends` route: the
category's sum for each month, months ascending. -/
def trendValues (txs : List Transaction) (c : String) : List ℚ :=
  (sortedMonths txs).map (fun m => monthlySum txs m c)

/-- `current = values[-1]` in the trends route. -/
def trendCurrent (txs : List Transaction) (c : String) : ℚ :=
  (trendValues txs c).getD ((trendValues txs c).length - 1) 0

/-- `previous = values[-2] if len(values) > 1 else 0` in the trends route. -/
def trendPrevious (txs : List Transaction) (c : String) : ℚ :=
  if (trendValues txs c).length > 1 then (trendValues txs c).getD ((trendValues txs c).length - 2) 0
  else 0

/-- `trend = ((current - previous) / previous * 100) if previous > 0 else 0`. -/
def trendPercent (txs : List Transaction) (c : String) : ℚ :=
  if trendPrevious txs c > 0 then
    (trendCurrent txs c - trendPrevious txs c) / trendPrevious txs c * 100
  else 0

/-- The `/api/trends` route of `app.py`: with fewer than two months the
result is the empty dict; otherwise, for each display-order category with
at least two month values, the `current`/`previous`/`trend_percent`
record. -/
def trends (txs : List Transaction) : List (String × ℚ × ℚ × ℚ) :=
  if (sortedMonths txs).length < 2 then []
  else
    CATEGORY_ORDER.filterMap (fun c =>
      if (trendValues txs c).length ≥ 2 then
        some (c, trendCurrent txs c, trendPrevious txs c, trendPercent txs c)
      else none)

/-- Python float division, `none` modelling the `ZeroDivisionError`
raised when the divisor is zero. -/
def pyDivQ (a b : ℚ) : Option ℚ :=
  if b = 0 then none else some (a / b)

/-- The overall per-category average loop of `main` in
`credit_card_expenses.py` (lines 223–228): for each display-order
category, the lifetime total divided by `len(all_months)` — with no
guard, so `none` (a raised `ZeroDivisionError`) when there are no months. -/
def main_category_averages (txs : List Transaction) : Option (List (String × ℚ)) :=
  let allMonths := sortedMonths txs
  CATEGORY_ORDER.mapM (fun c =>
    (pyDivQ ((allMonths.map (fun m => monthlySum txs m c)).sum) (allMonths.length : ℚ)).map
      (fun v => (c, v)))

/-- Lookup in an association list with Python's `.get(key, 0.0)` default. -/
def mapGet (l : List (String × ℚ)) (c : String) : ℚ :=
  ((l.find? (fun p => p.1 = c)).map Prod.snd).getD 0

/-- Lookup of a month's category dict in the `monthly_sums` mapping. -/
def lookupMonth (ms : List (Nat × List (String × ℚ))) (m : Nat) : List (String × ℚ) :=
  ((ms.find? (fun p => p.1 = m)).map Prod.snd).getD []

/-- `all_months = sorted(monthly_sums.keys())` in
`compute_last_n_month_averages`. -/
def allMonthsOf (monthlySums : List (Nat × List (String × ℚ))) : List Nat :=
  sortNat (monthlySums.map Prod.fst)

/-- `n = max(1, min(n, len(all_months)))`, the clamped window size of
`compute_last_n_month_averages`. -/
def lastNClamp (monthlySums : List (Nat × List (String × ℚ))) (n : Int) : Nat :=
  (max 1 (min n ((allMonthsOf monthlySums).length : Int))).toNat

/-- `selected_months = all_months[-n:]` (with the clamped `n`). -/
def selectedMonths (monthlySums : List (Nat × List (String × ℚ))) (n : Int) : List Nat :=
  (allMonthsOf monthlySums).drop ((allMonthsOf monthlySums).length - lastNClamp monthlySums n)

/-- The per-category average dict of `compute_last_n_month_averages`:
each category's sum over the selected months divided by the clamped `n`. -/
def lastNAvg (monthlySums : List (Nat × List (String × ℚ)))
    (categoryOrder : List String) (n : Int) : List (String × ℚ) :=
  categoryOrder.map (fun c =>
    (c, ((selectedMonths monthlySums n).map (fun m => mapGet (lookupMonth monthlySums m) c)).sum
          / (lastNClamp monthlySums n : ℚ)))

/-- `compute_last_n_month_averages` of `credit_card_expenses.py`, over a
`monthly_sums` mapping given as an association list: when there are no
months, zeros and an empty selection; otherwise clamp `n` to
`[1, len(all_months)]`, select that many most recent months (the suffix
of the ascending-sorted keys), average each display category over the
selection dividing by the clamped `n`, and append the `Monthly Total`
row; the selected months are returned alongside the averages. -/
def compute_last_n_month_averages (monthlySums : List (Nat × List (String × ℚ)))
    (categoryOrder : List String) (n : Int) :
    List (String × ℚ) × List Nat :=
  if (allMonthsOf monthlySums).isEmpty then
    (categoryOrder.map (fun c => (c, (0 : ℚ))) ++ [("Monthly Total", 0)], [])
  else
    (lastNAvg monthlySums categoryOrder n
        ++ [("Monthly Total",
              (categoryOrder.map (fun c => mapGet (lastNAvg monthlySums categoryOrder n) c)).sum)],
     selectedMonths monthlySums n)

/-- The `/api/category-averages` route of `app.py`: empty JSON (`none`)
when there are no months; otherwise overall averages, last-3-month
averages, the month count and the effective last-3 count. -/
def category_averages_route (txs : List Transaction) :
    Option (List (String × ℚ) × List (String × ℚ) × Nat × Nat) :=
  let allMonths := sortedMonths txs
  if allMonths.isEmpty then none
  else
    let numMonths := allMonths.length
    let overall := CATEGORY_ORDER.map (fun c =>
      (c, (allMonths.map (fun m => monthlySum txs m c)).sum / (numMonths : ℚ)))
    let last3 := if allMonths.length ≥ 3 then allMonths.drop (allMonths.length - 3) else allMonths
    let last3Avg := CATEGORY_ORDER.map (fun c =>
      (c, (last3.map (fun m => monthlySum txs m c)).sum / (last3.length : ℚ)))
    some (overall, last3Avg, numMonths, last3.length)

/-! Concrete sample data used to evaluate the embedding on closed inputs. -/

/-- A header row (its contents are irrelevant: the first row of a file is
always skipped). -/
def headerRow : List String :=
  ["header"]

/-- A well-formed debit row: LIDL groceries, 12.50, 2024-01-05. -/
def lidlRow : List String :=
  ["Nakup", "", "12.50", "", "", "", "05.01.2024", "", "", "", "LIDL BRATISLAVA"]

/-- A row whose amount field is the negative decimal `-5.0`. -/
def negAmountRow : List String :=
  ["Nakup", "x", "-5.0", "", "", "", "05.01.2024", "", "", "", "SHOP"]

/-- A credit-direction row (upper case, surrounding whitespace). -/
def kreditRow : List String :=
  ["  KREDIT  ", "", "5.00", "", "", "", "06.01.2024", "", "", "", "REFUND XYZ"]

/-- A debit row whose merchant matches the `travel` category. -/
def flixbusRow : List String :=
  ["Nakup", "", "10.00", "", "", "", "05.01.2024", "", "", "", "FLIXBUS"]

/-- January groceries, 10.0. -/
def janGroceriesRow : List String :=
  ["Nakup", "", "10.0", "", "", "", "05.01.2024", "", "", "", "LIDL"]

/-- February groceries, 50.0. -/
def febGroceriesRow : List String :=
  ["Nakup", "", "50.0", "", "", "", "06.02.2024", "", "", "", "LIDL"]

/-- January groceries with a negative amount, -50.0. -/
def janNegativeRow : List String :=
  ["Nakup", "", "-50.0", "", "", "", "05.01.2024", "", "", "", "LIDL"]

/-- The parsed transactions of a file holding only the FLIXBUS row. -/
def txsTravel : List Transaction :=
  parse_expenses_from_csv [headerRow, flixbusRow]

/-- Two months of groceries spend: 10.0 in January, 50.0 in February. -/
def txsTwoMonths : List Transaction :=
  parse_expenses_from_csv [headerRow, janGroceriesRow, febGroceriesRow]

/-- Two months of groceries spend with a negative January total. -/
def txsNegPrev : List Transaction :=
  parse_expenses_from_csv [headerRow, janNegativeRow, febGroceriesRow]

/-- A `monthly_sums` mapping with exactly two months of groceries data. -/
def twoMonthSums : List (Nat × List (String × ℚ)) :=
  [(202401, [("groceries", 10)]), (202402, [("groceries", 30)])]

/-! Supporting lemmas. -/

/-- A category returned by `firstMatch` is a key of the scanned table. -/
lemma firstMatch_mem {ml c : String} :
    ∀ {l : List (String × List String)}, firstMatch ml l = some c → c ∈ l.map Prod.fst := by
  intro l
  induction l with
  | nil => intro h; simp [firstMatch] at h
  | cons p rest ih =>
    intro h
    obtain ⟨a, kws⟩ := p
    rw [firstMatch] at h
    split at h
    · simp at h
      simp [h]
    · simp [ih h]

/-- `firstMatch` skips a prefix of the table none of whose keywords match. -/
lemma firstMatch_append_of_no_match {ml : String} {l : List (String × List String)} :
    ∀ {pre : List (String × List String)},
      (∀ p ∈ pre, ∀ k ∈ p.2, pyContains ml k = false) →
      firstMatch ml (pre ++ l) = firstMatch ml l := by
  intro pre
  induction pre with
  | nil => intro _; rfl
  | cons p rest ih =>
    intro h
    obtain ⟨a, kws⟩ := p
    have hall : ∀ k ∈ kws, pyContains ml k = false := by
      intro k hk; exact h (a, kws) (List.mem_cons_self _ _) k hk
    have hany : kws.any (fun k => pyContains ml k) = false := by
      simp only [List.any_eq_false]
      intro k hk
      simp [hall k hk]
    rw [List.cons_append, firstMatch, hany]
    simp only [Bool.false_eq_true, if_false]
    exact ih (fun q hq => h q (List.mem_cons_of_mem _ hq))

/-- A decimal accepted by `parseDec` that does not begin with a minus sign
has a non-negative value. -/
lemma parseDec_nonneg {s : String} {q : ℚ} (h : parseDec s = some q)
    (hsign : s.data.head? ≠ some '-') : 0 ≤ q := by
  have hsgn : decSign s = 1 := if_neg hsign
  unfold parseDec at h
  rw [hsgn] at h
  split at h
  · split at h
    · exact absurd h (by simp)
    · rw [← Option.some.inj h]; positivity
  · split at h
    · rw [← Option.some.inj h]; positivity
    · exact absurd h (by simp)
  · exact absurd h (by simp)

/-- The amount of an accepted transaction is the parsed value of the
(stripped) amount field. -/
lemma parseRow_amount {row : List String} {t : Transaction}
    (h : parseRow row = some t) :
    parseDec (pyStrip (field row 2)) = some t.amount := by
  by_cases h1 : row.length < 11
  · simp only [parseRow] at h
    rw [if_pos h1] at h
    exact absurd h (by simp)
  · by_cases h2 : pyLower (pyStrip (field row 0)) = "kredit"
    · simp only [parseRow] at h
      rw [if_neg h1, if_pos h2] at h
      exact absurd h (by simp)
    · cases h3 : parseDate (pyStrip (field row 6)) with
      | none =>
        simp only [parseRow] at h
        rw [if_neg h1, if_neg h2] at h
        simp only [h3] at h
        exact absurd h (by simp)
      | some d =>
        cases h4 : parseDec (pyStrip (field row 2)) with
        | none =>
          simp only [parseRow] at h
          rw [if_neg h1, if_neg h2] at h
          simp only [h3, h4] at h
          exact absurd h (by simp)
        | some a =>
          simp only [parseRow] at h
          rw [if_neg h1, if_neg h2] at h
          simp only [h3, h4] at h
          exact congrArg some (congrArg Transaction.amount (Option.some.inj h))

/-- Sorting the month keys preserves their number. -/
lemma length_allMonthsOf (ms : List (Nat × List (String × ℚ))) :
    (allMonthsOf ms).length = ms.length := by
  unfold allMonthsOf sortNat
  rw [List.length_mergeSort, List.length_map]

/-- The sorted month-key list of a nonempty mapping is nonempty. -/
lemma allMonthsOf_ne_nil {ms : List (Nat × List (String × ℚ))} (hne : ms ≠ []) :
    (allMonthsOf ms).isEmpty = false := by
  rw [List.isEmpty_eq_false]
  intro h0
  have := length_allMonthsOf ms
  rw [h0] at this
  simp at this
  exact hne (List.eq_nil_of_length_eq_zero this.symm)

/-- Looking up a key of a tabulated association list returns its value
(whatever is appended after the table). -/
lemma mapGet_map_append (f : String → ℚ) (rest : List (String × ℚ)) :
    ∀ {l : List String} {c : String}, c ∈ l →
      mapGet (l.map (fun x => (x, f x)) ++ rest) c = f c := by
  intro l
  induction l with
  | nil => intro c hc; cases hc
  | cons a as ih =>
    intro c hc
    by_cases hac : a = c
    · subst hac
      rw [mapGet, List.map_cons, List.cons_append, List.find?_cons_of_pos _ (by simp)]
      rfl
    · have hc' : c ∈ as := by
        rcases List.mem_cons.mp hc with h | h
        · exact absurd h.symm hac
        · exact h
      rw [mapGet, List.map_cons, List.cons_append, List.find?_cons_of_neg _ (by simp [hac])]
      exact ih hc'

/-- The length-one suffix of a nonempty list is its last element. -/
lemma drop_length_sub_one : ∀ (l : List Nat), l ≠ [] → l.drop (l.length - 1) = [l.getLastD 0]
  | [], h => absurd rfl h
  | [_], _ => rfl
  | a :: b :: bs, _ => by
      have ih := drop_length_sub_one (b :: bs) (by simp)
      rw [List.getLastD_eq_getLast?, List.getLast?_cons_cons, ← List.getLastD_eq_getLast?]
      rw [← ih]
      simp only [List.length_cons]
      rw [Nat.add_sub_cancel, Nat.add_sub_cancel, List.drop_succ_cons]

/-! The claims. -/

set_option maxRecDepth 8000 in
/-- Claim C1: the sum invariant fails on the code. `categorize_merchant`
can return `travel` (a key of `CATEGORIES`), but `CATEGORY_ORDER` omits
`travel`, so for a month holding one FLIXBUS transaction of 10.00 the sum
of the display-order per-category totals is 0 while the sum of the
month's transaction amounts is 10. -/
theorem travel_category_breaks_month_sum_invariant :
    txsTravel = [Transaction.mk ⟨2024, 1, 5⟩ "FLIXBUS" 10 "travel"] ∧
    "travel" ∈ CATEGORIES.map Prod.fst ∧
    "travel" ∉ CATEGORY_ORDER ∧
    (CATEGORY_ORDER.map (fun c => monthlySum txsTravel 202401 c)).sum = 0 ∧
    ((txsTravel.filter (fun t => monthKey t.date = 202401)).map (fun t => t.amount)).sum = 10 ∧
    (0 : ℚ) ≠ 10 := by
  with_unfolding_all decide

set_option maxRecDepth 8000 in
/-- Claim C2: on empty input the overall per-category average of `main`
is not guarded: it divides by `len(all_months) = 0`, modelled by
`main_category_averages [] = none` (a raised `ZeroDivisionError`), while
`compute_last_n_month_averages` does return explicit zeros and the
`/api/category-averages` route returns the empty JSON object. -/
theorem empty_input_overall_average_unguarded :
    get_expenses_data [] = [] ∧
    main_category_averages [] = none ∧
    category_averages_route [] = none ∧
    compute_last_n_month_averages [] CATEGORY_ORDER 3
      = (CATEGORY_ORDER.map (fun c => (c, (0 : ℚ))) ++ [("Monthly Total", 0)], []) := by
  with_unfolding_all decide

set_option maxRecDepth 8000 in
/-- Claim C3, counterexample: the parser accepts a row whose amount field
is `-5.0` and produces a transaction with negative amount, so the claim
that every accepted transaction has a non-negative amount is false. -/
theorem parser_accepts_negative_amount :
    parseRow negAmountRow = some (Transaction.mk ⟨2024, 1, 5⟩ "SHOP" (-5) "other") ∧
    (Transaction.mk ⟨2024, 1, 5⟩ "SHOP" (-5) "other").amount < 0 := by
  with_unfolding_all decide

/-- Claim C3, amended: every transaction accepted by the parser whose
(stripped) amount field does not begin with a minus sign has a
non-negative amount. -/
theorem parsed_amount_nonneg_without_minus_sign (row : List String) (t : Transaction)
    (h : parseRow row = some t)
    (hsign : (pyStrip (field row 2)).data.head? ≠ some '-') :
    0 ≤ t.amount :=
  parseDec_nonneg (parseRow_amount h) hsign

set_option maxRecDepth 8000 in
/-- Witness for claim C3's amended theorem at the LIDL sample row. -/
theorem parsed_amount_nonneg_witness :
    0 ≤ (Transaction.mk ⟨2024, 1, 5⟩ "LIDL BRATISLAVA" (25/2) "groceries").amount :=
  parsed_amount_nonneg_without_minus_sign lidlRow
    (Transaction.mk ⟨2024, 1, 5⟩ "LIDL BRATISLAVA" (25/2) "groceries")
    (by with_unfolding_all decide) (by with_unfolding_all decide)

set_option maxRecDepth 8000 in
/-- Claim C4, counterexample: with a previous-month total of -50 (nonzero)
and a current total of 50 the code reports trend percent 0, not the value
-200 of the formula, so the claim's "formula whenever previous is nonzero"
is false (the code guards on `previous > 0`, not `previous != 0`). -/
theorem trend_negative_previous_counterexample :
    ("groceries", (50 : ℚ), -50, 0) ∈ trends txsNegPrev ∧
    (-50 : ℚ) ≠ 0 ∧
    ((50 : ℚ) - (-50)) / (-50) * 100 = -200 ∧
    (0 : ℚ) ≠ -200 := by
  refine ⟨by with_unfolding_all decide, by norm_num, by norm_num, by norm_num⟩

/-- Claim C4, amended: with fewer than two months the trend result is
empty, and every reported entry has trend percent equal to
`(current - previous) / previous * 100` when `previous > 0` and exactly
`0` when `previous <= 0`. -/
theorem trend_percent_contract (txs : List Transaction) :
    ((sortedMonths txs).length < 2 → trends txs = []) ∧
    (∀ c cur prev tp, (c, cur, prev, tp) ∈ trends txs →
      (0 < prev → tp = (cur - prev) / prev * 100) ∧ (prev ≤ 0 → tp = 0)) := by
  constructor
  · intro h
    unfold trends
    rw [if_pos h]
  · intro c cur prev tp hmem
    unfold trends at hmem
    split at hmem
    · simp at hmem
    · obtain ⟨c', hc', heq⟩ := List.mem_filterMap.mp hmem
      split at heq
      · have h' := Option.some.inj heq
        simp only [Prod.mk.injEq] at h'
        obtain ⟨rfl, rfl, rfl, rfl⟩ := h'
        constructor
        · intro hp
          simp only [trendPercent]
          rw [if_pos hp]
        · intro hp
          simp only [trendPercent]
          rw [if_neg (not_lt.mpr hp)]
      · exact absurd heq (by simp)

set_option maxRecDepth 8000 in
/-- Witness for claim C4's amended theorem: 10.0 then 50.0 of groceries
spend gives the reported trend percent 400 = (50 - 10) / 10 * 100. -/
theorem trend_percent_contract_witness :
    ("groceries", (50 : ℚ), 10, 400) ∈ trends txsTwoMonths ∧
    (400 : ℚ) = ((50 : ℚ) - 10) / 10 * 100 := by
  have hmem : ("groceries", (50 : ℚ), 10, 400) ∈ trends txsTwoMonths := by
    with_unfolding_all decide
  refine ⟨hmem, ?_⟩
  exact ((trend_percent_contract txsTwoMonths).2 "groceries" 50 10 400 hmem).1 (by norm_num)

/-- Claim C5: the parser skips the header row and maps each remaining row
to a transaction or a silent rejection; a row is rejected exactly when it
has fewer than 11 fields, its direction field (trimmed, case-insensitive)
is the credit marker `kredit`, its date fails `DD.MM.YYYY`, or its amount
fails decimal parsing; in particular a credit-marker row never parses. -/
theorem parser_rejection_contract :
    (∀ hdr rows, parse_expenses_from_csv (hdr :: rows) = rows.filterMap parseRow) ∧
    (∀ row, parseRow row = none ↔
      (row.length < 11 ∨ pyLower (pyStrip (field row 0)) = "kredit" ∨
       parseDate (pyStrip (field row 6)) = none ∨
       parseDec (pyStrip (field row 2)) = none)) ∧
    (∀ row, pyLower (pyStrip (field row 0)) = "kredit" → parseRow row = none) := by
  refine ⟨fun hdr rows => rfl, fun row => ?_, fun row h => ?_⟩
  · by_cases h1 : row.length < 11
    · apply iff_of_true
      · simp only [parseRow]; rw [if_pos h1]
      · exact Or.inl h1
    · by_cases h2 : pyLower (pyStrip (field row 0)) = "kredit"
      · apply iff_of_true
        · simp only [parseRow]; rw [if_neg h1, if_pos h2]
        · exact Or.inr (Or.inl h2)
      · cases h3 : parseDate (pyStrip (field row 6)) with
        | none =>
          apply iff_of_true
          · simp only [parseRow]; rw [if_neg h1, if_neg h2]; simp [h3]
          · exact Or.inr (Or.inr (Or.inl rfl))
        | some d =>
          cases h4 : parseDec (pyStrip (field row 2)) with
          | none =>
            apply iff_of_true
            · simp only [parseRow]; rw [if_neg h1, if_neg h2]; simp [h3, h4]
            · exact Or.inr (Or.inr (Or.inr rfl))
          | some a =>
            apply iff_of_false
            · simp only [parseRow]; rw [if_neg h1, if_neg h2]; simp [h3, h4]
            · push_neg
              refine ⟨by omega, h2, ?_, ?_⟩ <;> simp
  · by_cases h1 : row.length < 11
    · simp only [parseRow]; rw [if_pos h1]
    · simp only [parseRow]; rw [if_neg h1, if_pos h]

/-- Witness for claim C5 at a concrete credit-direction row. -/
theorem parser_rejection_contract_witness : parseRow kreditRow = none :=
  parser_rejection_contract.2.2 kreditRow (by with_unfolding_all decide)

set_option maxRecDepth 8000 in
/-- Claim C6, counterexample: the merchant `LIDL CAFE BOLT` matches a
keyword of `eating out` and a keyword of `bolt`, and `eating out`
precedes `bolt` in the table, yet `categorize_merchant` returns
`groceries` (an even earlier match), so the claim as universally stated
over any two matched categories is false. -/
theorem categorize_pairwise_tiebreak_counterexample :
    pyContains (pyLower "LIDL CAFE BOLT") "cafe" = true ∧
    "cafe" ∈ (CATEGORIES.getD 1 ("", [])).2 ∧
    (CATEGORIES.getD 1 ("", [])).1 = "eating out" ∧
    pyContains (pyLower "LIDL CAFE BOLT") "bolt" = true ∧
    "bolt" ∈ (CATEGORIES.getD 2 ("", [])).2 ∧
    (CATEGORIES.getD 2 ("", [])).1 = "bolt" ∧
    categorize_merchant "LIDL CAFE BOLT" = "groceries" ∧
    "groceries" ≠ "eating out" := by
  with_unfolding_all decide

/-- Claim C6, amended: if a merchant matches keywords of categories `A`
and `B`, `A` precedes `B` in the table, and no category preceding `A`
has any matching keyword, then `categorize_merchant` returns `A` —
regardless of where the matching keywords sit in the keyword lists. -/
theorem categorize_first_table_category_wins (m A B : String) (kwsA kwsB : List String)
    (pre mid post : List (String × List String))
    (hsplit : CATEGORIES = pre ++ ((A, kwsA) :: (mid ++ ((B, kwsB) :: post))))
    (hA : ∃ k ∈ kwsA, pyContains (pyLower m) k = true)
    (_hB : ∃ k ∈ kwsB, pyContains (pyLower m) k = true)
    (hpre : ∀ p ∈ pre, ∀ k ∈ p.2, pyContains (pyLower m) k = false) :
    categorize_merchant m = A := by
  unfold categorize_merchant
  have hskip := firstMatch_append_of_no_match
    (l := (A, kwsA) :: (mid ++ ((B, kwsB) :: post))) hpre
  rw [hsplit, hskip, firstMatch]
  have hany : kwsA.any (fun k => pyContains (pyLower m) k) = true := by
    obtain ⟨k, hk, hck⟩ := hA
    exact List.any_eq_true.mpr ⟨k, hk, hck⟩
  rw [hany]
  rfl

set_option maxRecDepth 8000 in
/-- Witness for claim C6's amended theorem: `MCDONALD BOLT` matches
`eating out` (before `bolt`) and no groceries keyword. -/
theorem categorize_first_table_category_wins_witness :
    categorize_merchant "MCDONALD BOLT" = "eating out" :=
  categorize_first_table_category_wins "MCDONALD BOLT" "eating out" "bolt"
    (CATEGORIES.getD 1 ("", [])).2 (CATEGORIES.getD 2 ("", [])).2
    (CATEGORIES.take 1) [] (CATEGORIES.drop 3)
    (by with_unfolding_all decide) (by with_unfolding_all decide)
    (by with_unfolding_all decide) (by with_unfolding_all decide)

/-- Claim C7: for a window size of at least 1 over a nonempty mapping,
the trailing average selects exactly the `min(n, available)` most recent
months (the suffix of the ascending-sorted month keys), reports them
alongside the averages, and divides each display category's sum over the
selection by the effective (reported) month count. -/
theorem trailing_average_window (ms : List (Nat × List (String × ℚ))) (n : Int)
    (hn : 1 ≤ n) (hne : ms ≠ []) :
    (compute_last_n_month_averages ms CATEGORY_ORDER n).2
        = (allMonthsOf ms).drop (ms.length - min n.toNat ms.length) ∧
    (compute_last_n_month_averages ms CATEGORY_ORDER n).2.length = min n.toNat ms.length ∧
    (∀ c ∈ CATEGORY_ORDER,
      mapGet (compute_last_n_month_averages ms CATEGORY_ORDER n).1 c
        = (((compute_last_n_month_averages ms CATEGORY_ORDER n).2).map
            (fun m => mapGet (lookupMonth ms m) c)).sum
          / (((compute_last_n_month_averages ms CATEGORY_ORDER n).2).length : ℚ)) := by
  have hlen : (allMonthsOf ms).length = ms.length := length_allMonthsOf ms
  have hms : 1 ≤ ms.length := List.length_pos.mpr hne
  have hsplit : compute_last_n_month_averages ms CATEGORY_ORDER n
      = (lastNAvg ms CATEGORY_ORDER n
          ++ [("Monthly Total",
                (CATEGORY_ORDER.map (fun c => mapGet (lastNAvg ms CATEGORY_ORDER n) c)).sum)],
         selectedMonths ms n) := by
    unfold compute_last_n_month_averages
    rw [allMonthsOf_ne_nil hne]
    simp
  have hclamp : lastNClamp ms n = min n.toNat ms.length := by
    unfold lastNClamp
    rw [hlen]
    omega
  have hsel : (selectedMonths ms n).length = lastNClamp ms n := by
    unfold selectedMonths
    rw [List.length_drop, hlen, hclamp]
    omega
  rw [hsplit]
  refine ⟨?_, ?_, ?_⟩
  · simp only []
    unfold selectedMonths
    rw [hlen, hclamp]
  · simp only []
    rw [hsel, hclamp]
  · intro c hc
    simp only []
    unfold lastNAvg
    rw [mapGet_map_append (fun c =>
      ((selectedMonths ms n).map (fun m => mapGet (lookupMonth ms m) c)).sum
        / (lastNClamp ms n : ℚ)) _ hc]
    rw [hsel]

/-- Witness for claim C7: a 3-month trailing average over exactly 2
months uses both months (effective count 2). -/
theorem trailing_average_window_witness :
    (compute_last_n_month_averages twoMonthSums CATEGORY_ORDER 3).2.length
      = min (Int.toNat 3) twoMonthSums.length :=
  (trailing_average_window twoMonthSums 3 (by norm_num) (by simp [twoMonthSums])).2.1

/-- Claim C8: `categorize_merchant` is total and, for every merchant
string, returns a key of the category table or the sentinel `other`. -/
theorem categorize_total_and_in_fixed_set (m : String) :
    categorize_merchant m = "other" ∨ categorize_merchant m ∈ CATEGORIES.map Prod.fst := by
  unfold categorize_merchant
  cases h : firstMatch (pyLower m) CATEGORIES with
  | none => left; rfl
  | some c => right; simpa using firstMatch_mem h

/-- Claim C9: ingestion and aggregation are pure functions of the input
row sequences — two runs over equal inputs produce equal flat transaction
lists, equal per-month-and-category sums and equal month-key lists (the
aggregation state is rebuilt from the all-zero map on every run). -/
theorem ingestion_deterministic (files1 files2 : List (List (List String)))
    (h : files1 = files2) :
    get_expenses_data files1 = get_expenses_data files2 ∧
    (∀ m c, monthlySum (get_expenses_data files1) m c
        = monthlySum (get_expenses_data files2) m c) ∧
    monthKeys (get_expenses_data files1) = monthKeys (get_expenses_data files2) ∧
    aggFrom zeroAgg (get_expenses_data files1) = aggFrom zeroAgg (get_expenses_data files2) := by
  subst h
  exact ⟨rfl, fun _ _ => rfl, rfl, rfl⟩

/-- Witness for claim C9 at a concrete one-file input. -/
theorem ingestion_deterministic_witness :
    get_expenses_data [[headerRow, lidlRow]] = get_expenses_data [[headerRow, lidlRow]] :=
  (ingestion_deterministic [[headerRow, lidlRow]] [[headerRow, lidlRow]] rfl).1

/-- Claim C10: for a nonempty mapping and a window size `n <= 0`, the
clamp `max(1, min(n, months))` makes the window the single most recent
month: the reported selection is exactly the last sorted month key and
each display category's average equals that month's sum. -/
theorem trailing_average_clamps_to_one (ms : List (Nat × List (String × ℚ))) (n : Int)
    (hn : n ≤ 0) (hne : ms ≠ []) :
    (compute_last_n_month_averages ms CATEGORY_ORDER n).2
        = [(allMonthsOf ms).getLastD 0] ∧
    (compute_last_n_month_averages ms CATEGORY_ORDER n).2.length = 1 ∧
    (∀ c ∈ CATEGORY_ORDER,
      mapGet (compute_last_n_month_averages ms CATEGORY_ORDER n).1 c
        = mapGet (lookupMonth ms ((allMonthsOf ms).getLastD 0)) c) := by
  have hlen : (allMonthsOf ms).length = ms.length := length_allMonthsOf ms
  have hms : 1 ≤ ms.length := List.length_pos.mpr hne
  have hsplit : compute_last_n_month_averages ms CATEGORY_ORDER n
      = (lastNAvg ms CATEGORY_ORDER n
          ++ [("Monthly Total",
                (CATEGORY_ORDER.map (fun c => mapGet (lastNAvg ms CATEGORY_ORDER n) c)).sum)],
         selectedMonths ms n) := by
    unfold compute_last_n_month_averages
    rw [allMonthsOf_ne_nil hne]
    simp
  have hclamp : lastNClamp ms n = 1 := by
    unfold lastNClamp
    rw [hlen]
    omega
  have hselect : selectedMonths ms n = [(allMonthsOf ms).getLastD 0] := by
    unfold selectedMonths
    rw [hclamp]
    exact drop_length_sub_one (allMonthsOf ms) (by
      rw [← List.isEmpty_eq_false]
      exact allMonthsOf_ne_nil hne)
  rw [hsplit]
  refine ⟨?_, ?_, ?_⟩
  · simp only []
    exact hselect
  · simp only []
    rw [hselect]
    rfl
  · intro c hc
    simp only []
    unfold lastNAvg
    rw [mapGet_map_append (fun c =>
      ((selectedMonths ms n).map (fun m => mapGet (lookupMonth ms m) c)).sum
        / (lastNClamp ms n : ℚ)) _ hc]
    rw [hselect, hclamp]
    simp

/-- Witness for claim C10 at two months and window 0. -/
theorem trailing_average_clamps_to_one_witness :
    (compute_last_n_month_averages twoMonthSums CATEGORY_ORDER 0).2.length = 1 :=
  (trailing_average_clamps_to_one twoMonthSums 0 (by norm_num) (by simp [twoMonthSums])).2.1

end Expenses
